import Mathlib

/-!
Verification of the light-bending integrators of the BlackHole repository.

The repository contains three standalone demos:
* Blackhole2D.cpp : a 2D polar-coordinate Schwarzschild null-geodesic
  integrator (function geodesic, struct Ray, the per-frame loop in main);
* BlackHole3D.cpp : a 3D Newtonian-analogue deflection integrator
  (struct RayPoint with update/reset, the per-frame loop in main);
* Ton618.cpp      : a GLSL ray-marching fragment shader whose marching loop
  bends and advances view rays (fragmentShaderSource main).

The C++ doubles/floats and GLSL floats are modelled as real numbers; GLFW /
OpenGL plumbing (window handling, buffers, drawing) carries no simulation
state and is not modelled.  glm vec3 becomes the structure Vec3 below with
length and normalize defined exactly as glm defines them (normalize v =
v / length v; note that in C++ normalize of the zero vector produces NaN,
while over the reals the convention 1/0 = 0 makes it the zero vector — in
both readings its length differs from any positive constant).
-/

noncomputable section

/-! ## Blackhole2D.cpp — data model and integrator -/

/-- Affine parameter step size (Blackhole2D.cpp line 17, value 0.02). -/
def GEODESIC_STEP : ℝ := 0.02

/-- Trail length bound of the 2D Ray (Blackhole2D.cpp line 142). -/
def maxTrailLength : ℕ := 1000

/-- Schwarzschild radius of the black hole constructed in Blackhole2D.cpp
main (line 257): BlackHole Ton68(vec2(0,0), 0.2f) uses the
normalized-radius constructor, so r_s = 0.2. -/
def bh2D_r_s : ℝ := 0.2

/-- State of struct Ray in Blackhole2D.cpp (lines 137-142): polar position
(r, phi), polar velocity (dr_dlambda, dphi_dlambda) and the Cartesian
trail used for drawing. -/
@[ext]
structure Ray2 where
  r : ℝ
  phi : ℝ
  dr_dlambda : ℝ
  dphi_dlambda : ℝ
  trail : List (ℝ × ℝ)

/-- Denominator of the radial acceleration term of geodesic
(Blackhole2D.cpp line 231): 2 * r * (r - r_s). -/
def radialDenom (r r_s : ℝ) : ℝ := 2 * r * (r - r_s)

/-- Radial acceleration of geodesic (Blackhole2D.cpp lines 230-231). -/
def d2r_dlambda2 (r dr dphi r_s : ℝ) : ℝ :=
  r * dphi * dphi * (1 - r_s / r) - r_s * dr * dr / radialDenom r r_s

/-- Angular acceleration of geodesic (Blackhole2D.cpp line 236). -/
def d2phi_dlambda2 (r dr dphi : ℝ) : ℝ := -2 * dr * dphi / r

/-- One integration step of the 2D demo: the function geodesic of
Blackhole2D.cpp (lines 219-246).  It reads r, dr_dlambda, dphi_dlambda at
the start of the step, updates the two velocities with the accelerations,
then updates r and phi with the just-updated velocities. -/
def geodesic (ray : Ray2) (r_s : ℝ) : Ray2 :=
  let r := ray.r
  let dr := ray.dr_dlambda
  let dphi := ray.dphi_dlambda
  let ddr := d2r_dlambda2 r dr dphi r_s
  let ddphi := d2phi_dlambda2 r dr dphi
  let dr' := dr + ddr * GEODESIC_STEP
  let dphi' := dphi + ddphi * GEODESIC_STEP
  { ray with
      dr_dlambda := dr'
      dphi_dlambda := dphi'
      r := r + dr' * GEODESIC_STEP
      phi := ray.phi + dphi' * GEODESIC_STEP }

/-- Ray::update of Blackhole2D.cpp (lines 189-207): outside the horizon it
appends the Cartesian position to the trail and erases the oldest entry
when the trail exceeds maxTrailLength. -/
def rayUpdate2D (ray : Ray2) (r_s : ℝ) : Ray2 :=
  if ray.r < r_s then ray
  else
    let trail' := ray.trail ++ [(ray.r * Real.cos ray.phi, ray.r * Real.sin ray.phi)]
    { ray with trail := if maxTrailLength < trail'.length then trail'.drop 1 else trail' }

/-- The per-ray body of the while loop in Blackhole2D.cpp main
(lines 278-287): rays inside the event horizon are skipped, the rest get
one geodesic step followed by Ray::update. -/
def frameStep2D (r_s : ℝ) (ray : Ray2) : Ray2 :=
  if ray.r < r_s then ray
  else rayUpdate2D (geodesic ray r_s) r_s

/-- Iterating the per-frame update over n frames. -/
def frameSteps2D (r_s : ℝ) : ℕ → Ray2 → Ray2
  | 0, ray => ray
  | n + 1, ray => frameSteps2D r_s n (frameStep2D r_s ray)

/-- One frame of the 2D main loop over the whole ray collection
(Blackhole2D.cpp lines 278-287): each ray is updated on its own. -/
def frameAll2D (r_s : ℝ) (rays : List Ray2) : List Ray2 :=
  rays.map (frameStep2D r_s)

/-! ## BlackHole3D.cpp — data model and integrator -/

/-- glm::vec3, modelled over the reals. -/
@[ext]
structure Vec3 where
  x : ℝ
  y : ℝ
  z : ℝ

instance : Zero Vec3 := ⟨⟨0, 0, 0⟩⟩
instance : Add Vec3 := ⟨fun a b => ⟨a.x + b.x, a.y + b.y, a.z + b.z⟩⟩
instance : Sub Vec3 := ⟨fun a b => ⟨a.x - b.x, a.y - b.y, a.z - b.z⟩⟩
instance : Neg Vec3 := ⟨fun a => ⟨-a.x, -a.y, -a.z⟩⟩
instance : SMul ℝ Vec3 := ⟨fun t a => ⟨t * a.x, t * a.y, t * a.z⟩⟩

@[simp] lemma Vec3.zero_x : (0 : Vec3).x = 0 := rfl
@[simp] lemma Vec3.zero_y : (0 : Vec3).y = 0 := rfl
@[simp] lemma Vec3.zero_z : (0 : Vec3).z = 0 := rfl
@[simp] lemma Vec3.add_x (a b : Vec3) : (a + b).x = a.x + b.x := rfl
@[simp] lemma Vec3.add_y (a b : Vec3) : (a + b).y = a.y + b.y := rfl
@[simp] lemma Vec3.add_z (a b : Vec3) : (a + b).z = a.z + b.z := rfl
@[simp] lemma Vec3.sub_x (a b : Vec3) : (a - b).x = a.x - b.x := rfl
@[simp] lemma Vec3.sub_y (a b : Vec3) : (a - b).y = a.y - b.y := rfl
@[simp] lemma Vec3.sub_z (a b : Vec3) : (a - b).z = a.z - b.z := rfl
@[simp] lemma Vec3.neg_x (a : Vec3) : (-a).x = -a.x := rfl
@[simp] lemma Vec3.neg_y (a : Vec3) : (-a).y = -a.y := rfl
@[simp] lemma Vec3.neg_z (a : Vec3) : (-a).z = -a.z := rfl
@[simp] lemma Vec3.smul_x (t : ℝ) (a : Vec3) : (t • a).x = t * a.x := rfl
@[simp] lemma Vec3.smul_y (t : ℝ) (a : Vec3) : (t • a).y = t * a.y := rfl
@[simp] lemma Vec3.smul_z (t : ℝ) (a : Vec3) : (t • a).z = t * a.z := rfl

/-- glm::dot. -/
def dot3 (a b : Vec3) : ℝ := a.x * b.x + a.y * b.y + a.z * b.z

/-- glm::length: the Euclidean norm. -/
def norm3 (v : Vec3) : ℝ := Real.sqrt (v.x * v.x + v.y * v.y + v.z * v.z)

/-- glm::normalize: v divided by its length. -/
def normalize3 (v : Vec3) : Vec3 := (1 / norm3 v) • v

/-- Config constant SIMULATION_G (BlackHole3D.cpp line 13). -/
def SIMULATION_G : ℝ := 1.0

/-- Config constant BH_MASS (BlackHole3D.cpp line 14). -/
def BH_MASS : ℝ := 13200.0

/-- Config constant LIGHT_SPEED (BlackHole3D.cpp line 15). -/
def LIGHT_SPEED : ℝ := 50.0

/-- Config constant EVENT_HORIZON (BlackHole3D.cpp line 16). -/
def EVENT_HORIZON : ℝ := 1.0

/-- Global black-hole position spherePos (BlackHole3D.cpp line 20). -/
def spherePos : Vec3 := ⟨0, 0, 0⟩

/-- Global TRAIL_LENGTH (BlackHole3D.cpp line 29). -/
def TRAIL_LENGTH : ℕ := 1000

/-- State of struct RayPoint in BlackHole3D.cpp (lines 136-147): position,
velocity, the construction-time originals, the trail and the two flags.
The GPU buffer handles carry no simulation state and are not modelled. -/
@[ext]
structure Ray3 where
  position : Vec3
  velocity : Vec3
  originalPos : Vec3
  originalVel : Vec3
  trail : List Vec3
  finished : Bool
  hasHit : Bool

/-- RayPoint constructor (BlackHole3D.cpp lines 149-152): stores position,
velocity and their originals, fills the trail with the start position;
finished and hasHit start false (lines 146-147). -/
def mkRayPoint (startPos startVel : Vec3) : Ray3 :=
  { position := startPos
    velocity := startVel
    originalPos := startPos
    originalVel := startVel
    trail := List.replicate TRAIL_LENGTH startPos
    finished := false
    hasHit := false }

/-- RayPoint::reset (BlackHole3D.cpp lines 188-198): restore position and
velocity from the originals, fill the trail with originalPos, clear both
flags. -/
def resetRay (s : Ray3) : Ray3 :=
  { position := s.originalPos
    velocity := s.originalVel
    originalPos := s.originalPos
    originalVel := s.originalVel
    trail := List.replicate TRAIL_LENGTH s.originalPos
    finished := false
    hasHit := false }

/-- The trail shift of RayPoint::update (BlackHole3D.cpp lines 222-225):
every entry moves one slot towards the tail and the head becomes p. -/
def shiftTrail (p : Vec3) (t : List Vec3) : List Vec3 := p :: t.dropLast

/-- The velocity right after the gravitational impulse is added
(BlackHole3D.cpp lines 212-215): velocity += dir * acceleration * dt with
dir = normalize(spherePos - position) and
acceleration = SIMULATION_G * BH_MASS / dist^2. -/
def postImpulse (dt : ℝ) (s : Ray3) : Vec3 :=
  let toCenter := spherePos - s.position
  let dist := norm3 toCenter
  s.velocity + (SIMULATION_G * BH_MASS / (dist * dist) * dt) • normalize3 toCenter

/-- RayPoint::update (BlackHole3D.cpp lines 200-231).  If finished, nothing
happens.  Otherwise, inside the event horizon only hasHit is set; outside,
the velocity gets the gravitational impulse, is rescaled to length
LIGHT_SPEED, and the position advances by the new velocity times dt.  In
both branches the trail is shifted with the (possibly updated) position at
its head; the GPU buffer upload is not modelled. -/
def update3D (dt : ℝ) (s : Ray3) : Ray3 :=
  if s.finished then s
  else
    let dist := norm3 (spherePos - s.position)
    if dist < EVENT_HORIZON then
      { s with hasHit := true, trail := shiftTrail s.position s.trail }
    else
      let v' := LIGHT_SPEED • normalize3 (postImpulse dt s)
      let p' := s.position + dt • v'
      { s with velocity := v', position := p', trail := shiftTrail p' s.trail }

/-- A sequence of RayPoint::update calls with the given frame times. -/
def applyUpdates3D (dts : List ℝ) (s : Ray3) : Ray3 :=
  dts.foldl (fun t dt => update3D dt t) s

/-- One frame of the 3D main loop over the whole ray collection
(BlackHole3D.cpp lines 359-362): each ray is updated on its own. -/
def frameAll3D (dt : ℝ) (rays : List Ray3) : List Ray3 :=
  rays.map (update3D dt)

/-! ## Ton618.cpp — the ray-marching fragment shader -/

/-- Shader constant MAX_STEPS (Ton618.cpp line 67). -/
def MAX_STEPS : ℕ := 50

/-- Shader constant STEP_SIZE (Ton618.cpp line 68). -/
def STEP_SIZE : ℝ := 0.08

/-- Shader constant BH_RADIUS (Ton618.cpp line 69). -/
def BH_RADIUS : ℝ := 1.0

/-- Shader constant DISK_INNER (Ton618.cpp line 70). -/
def DISK_INNER : ℝ := 1.8

/-- Shader constant DISK_OUTER (Ton618.cpp line 71). -/
def DISK_OUTER : ℝ := 5.5

/-- GLSL mix(a, b, t). -/
def mixR (a b t : ℝ) : ℝ := a * (1 - t) + b * t

/-- GLSL mix on vec3, componentwise. -/
def mix3 (a b : Vec3) (t : ℝ) : Vec3 := ⟨mixR a.x b.x t, mixR a.y b.y t, mixR a.z b.z t⟩

/-- GLSL clamp(x, lo, hi). -/
def clampR (x lo hi : ℝ) : ℝ := min (max x lo) hi

/-- GLSL smoothstep(e0, e1, x). -/
def smoothstepR (e0 e1 x : ℝ) : ℝ :=
  let t := clampR ((x - e0) / (e1 - e0)) 0 1
  t * t * (3 - 2 * t)

/-- GLSL atan(y, x), the two-argument arctangent (used by the shader for
the disk angle; atan(0, 0) is left at 0). -/
def atan2R (y x : ℝ) : ℝ :=
  if 0 < x then Real.arctan (y / x)
  else if x < 0 then
    (if 0 ≤ y then Real.arctan (y / x) + Real.pi else Real.arctan (y / x) - Real.pi)
  else if 0 < y then Real.pi / 2
  else if y < 0 then -(Real.pi / 2)
  else 0

/-- Shader hash (Ton618.cpp line 74). -/
def hashN (n : ℝ) : ℝ := Int.fract (Real.sin n * 43758.5453123)

/-- Shader noise (Ton618.cpp lines 75-84). -/
def noiseF (xv : Vec3) : ℝ :=
  let px : ℝ := (⌊xv.x⌋ : ℤ)
  let py : ℝ := (⌊xv.y⌋ : ℤ)
  let pz : ℝ := (⌊xv.z⌋ : ℤ)
  let fx0 := Int.fract xv.x
  let fy0 := Int.fract xv.y
  let fz0 := Int.fract xv.z
  let fx := fx0 * fx0 * (3 - 2 * fx0)
  let fy := fy0 * fy0 * (3 - 2 * fy0)
  let fz := fz0 * fz0 * (3 - 2 * fz0)
  let n := px + py * 57 + 113 * pz
  mixR (mixR (mixR (hashN (n + 0)) (hashN (n + 1)) fx)
             (mixR (hashN (n + 57)) (hashN (n + 58)) fx) fy)
       (mixR (mixR (hashN (n + 113)) (hashN (n + 114)) fx)
             (mixR (hashN (n + 170)) (hashN (n + 171)) fx) fy) fz

/-- The loop of shader fbm (Ton618.cpp lines 87-96): k remaining
iterations, accumulator f, weight w, sample point p. -/
def fbmAux : ℕ → ℝ → ℝ → Vec3 → ℝ
  | 0, f, _, _ => f
  | k + 1, f, w, p => fbmAux k (f + w * noiseF p) (w * 0.5) ((2 : ℝ) • p)

/-- Shader fbm (Ton618.cpp lines 87-96): four octaves of noise. -/
def fbm (p : Vec3) : ℝ := fbmAux 4 0 0.5 p

/-- State carried across iterations of the shader marching loop
(Ton618.cpp lines 140-145 and the loop at 148-209). -/
@[ext]
structure MarchState where
  rayPos : Vec3
  rayDir : Vec3
  diskAccum : Vec3
  hit : Bool

/-- The accretion-disk colour added to diskAccum in one loop iteration
(Ton618.cpp lines 165-193), evaluated at the current position, view
direction, radius r and time. -/
def diskContribution (time : ℝ) (rayPos rayDir : Vec3) (r : ℝ) : Vec3 :=
  let distToPlane := |rayPos.y|
  let angle := atan2R rayPos.z rayPos.x
  let rotOffset := time * (2 / r)
  let gas := fbm ⟨r * 2, angle * 3 + rotOffset, 0⟩
  let radialFade := smoothstepR DISK_INNER (DISK_INNER + 0.5) r *
    (1 - smoothstepR (DISK_OUTER - 1) DISK_OUTER r)
  let verticalFade := 1 - distToPlane / 0.2
  let density := gas * radialFade * verticalFade * 0.2
  let diskVel := normalize3 ⟨-rayPos.z, 0, rayPos.x⟩
  let doppler := dot3 diskVel rayDir
  let beamIntensity := 1 + doppler * 0.6
  let hotColor : Vec3 := ⟨0.6, 0.8, 1.0⟩
  let coolColor : Vec3 := ⟨1.0, 0.2, 0.05⟩
  let baseColor := mix3 hotColor coolColor ((r - DISK_INNER) / (DISK_OUTER - DISK_INNER))
  (density * beamIntensity) • baseColor

/-- The gravity part of one marching iteration (Ton618.cpp lines 196-206):
bend the ray direction towards the centre and move the ray by
STEP_SIZE * min(r, 5.0) along the bent direction. -/
def shaderStep (s : MarchState) : MarchState :=
  let r := norm3 s.rayPos
  let toCenter := normalize3 (-s.rayPos)
  let force := 1.5 * BH_RADIUS / (r * r)
  let dir' := normalize3 (s.rayDir + (force * STEP_SIZE) • toCenter)
  { s with rayDir := dir', rayPos := s.rayPos + (STEP_SIZE * min r 5) • dir' }

/-- One full iteration of the marching loop body except its break tests
(Ton618.cpp lines 157-206): disk accumulation when inside the disk slab,
then the gravity bend-and-move. -/
def marchBody (time : ℝ) (s : MarchState) : MarchState :=
  let r := norm3 s.rayPos
  let s₁ :=
    if |s.rayPos.y| < 0.2 ∧ DISK_INNER < r ∧ r < DISK_OUTER then
      { s with diskAccum := s.diskAccum + diskContribution time s.rayPos s.rayDir r }
    else s
  shaderStep s₁

/-- The shader marching loop (Ton618.cpp lines 148-209) with fuel counting
the remaining iterations (the shader runs it with fuel MAX_STEPS).  Each
iteration first computes r; if r is below BH_RADIUS the loop breaks with
hitEventHorizon set; otherwise the body runs and, when r exceeds 30, the
loop breaks after the move (the escape test reads the r computed at the
top of the iteration). -/
def march (time : ℝ) : ℕ → MarchState → MarchState
  | 0, s => s
  | n + 1, s =>
    let r := norm3 s.rayPos
    if r < BH_RADIUS then { s with hit := true }
    else
      let s' := marchBody time s
      if 30 < r then s' else march time n s'

/-! ## Correspondence between the 2D polar state and the 3D Cartesian state

The refinement claim compares one step of the 2D polar integrator with one
step of the 3D integrator on corresponding states.  The translation below
follows the spec's words: the polar position (r, phi) becomes the Cartesian
point (r cos phi, r sin phi) in the z = 0 plane, and the polar velocity
(dr_dlambda, dphi_dlambda) becomes its derivative, the Cartesian velocity
(dr cos phi - r dphi sin phi, dr sin phi + r dphi cos phi, 0). -/

/-- Cartesian position of a 2D polar ray state (from the spec's translation
of polar to Cartesian). -/
def toCartPos (s : Ray2) : Vec3 :=
  ⟨s.r * Real.cos s.phi, s.r * Real.sin s.phi, 0⟩

/-- Cartesian velocity of a 2D polar ray state (from the spec's translation
of polar to Cartesian). -/
def toCartVel (s : Ray2) : Vec3 :=
  ⟨s.dr_dlambda * Real.cos s.phi - s.r * s.dphi_dlambda * Real.sin s.phi,
   s.dr_dlambda * Real.sin s.phi + s.r * s.dphi_dlambda * Real.cos s.phi, 0⟩

/-! ## Helper lemmas about the vector operations -/

lemma norm3_nonneg (v : Vec3) : 0 ≤ norm3 v := Real.sqrt_nonneg _

lemma norm3_zero : norm3 0 = 0 := by
  simp [norm3]

/-- Length of a vector on the x-axis. -/
lemma norm3_xaxis (a : ℝ) : norm3 ⟨a, 0, 0⟩ = |a| := by
  have h : a * a + 0 * 0 + 0 * 0 = a * a := by ring
  rw [norm3, h, Real.sqrt_mul_self_eq_abs]

lemma norm3_smul (t : ℝ) (v : Vec3) : norm3 (t • v) = |t| * norm3 v := by
  have h : (t • v).x * (t • v).x + (t • v).y * (t • v).y + (t • v).z * (t • v).z
      = (t * t) * (v.x * v.x + v.y * v.y + v.z * v.z) := by
    simp only [Vec3.smul_x, Vec3.smul_y, Vec3.smul_z]; ring
  rw [norm3, h, Real.sqrt_mul (mul_self_nonneg t), Real.sqrt_mul_self_eq_abs, norm3]

lemma norm3_eq_zero_iff (v : Vec3) : norm3 v = 0 ↔ v = 0 := by
  constructor
  · intro h
    have hsum : v.x * v.x + v.y * v.y + v.z * v.z = 0 := by
      have h0 : 0 ≤ v.x * v.x + v.y * v.y + v.z * v.z :=
        add_nonneg (add_nonneg (mul_self_nonneg _) (mul_self_nonneg _)) (mul_self_nonneg _)
      have := (Real.sqrt_eq_zero h0).mp h
      exact this
    have hx : v.x = 0 := by nlinarith [mul_self_nonneg v.x, mul_self_nonneg v.y, mul_self_nonneg v.z]
    have hy : v.y = 0 := by nlinarith [mul_self_nonneg v.x, mul_self_nonneg v.y, mul_self_nonneg v.z]
    have hz : v.z = 0 := by nlinarith [mul_self_nonneg v.x, mul_self_nonneg v.y, mul_self_nonneg v.z]
    ext <;> simp [hx, hy, hz]
  · intro h; rw [h]; exact norm3_zero

lemma norm3_pos_of_ne_zero {v : Vec3} (h : v ≠ 0) : 0 < norm3 v :=
  lt_of_le_of_ne (norm3_nonneg v) (fun h0 => h ((norm3_eq_zero_iff v).mp h0.symm))

/-- A normalized nonzero vector has length one. -/
lemma norm3_normalize3 {v : Vec3} (h : v ≠ 0) : norm3 (normalize3 v) = 1 := by
  have hp := norm3_pos_of_ne_zero h
  rw [normalize3, norm3_smul, abs_of_pos (one_div_pos.mpr hp)]
  field_simp

/-- Rescaling a normalized nonzero vector to length c gives length c for
nonnegative c. -/
lemma norm3_rescale {v : Vec3} (c : ℝ) (hc : 0 ≤ c) (h : v ≠ 0) :
    norm3 (c • normalize3 v) = c := by
  rw [norm3_smul, norm3_normalize3 h, abs_of_nonneg hc, mul_one]

/-- Normalizing a negative x-axis vector. -/
lemma normalize3_neg_xaxis (a : ℝ) (h : 0 < a) :
    normalize3 ⟨-a, 0, 0⟩ = ⟨-1, 0, 0⟩ := by
  have hn : norm3 ⟨-a, 0, 0⟩ = a := by rw [norm3_xaxis, abs_neg, abs_of_pos h]
  have ha : a ≠ 0 := ne_of_gt h
  ext
  · simp [normalize3, hn]; field_simp
  · simp [normalize3]
  · simp [normalize3]

/-- The vector from an x-axis point to the 3D black hole at the origin. -/
lemma spherePos_sub_xaxis (a : ℝ) : spherePos - (⟨a, 0, 0⟩ : Vec3) = ⟨-a, 0, 0⟩ := by
  ext <;> simp [spherePos]

/-- Length of a negative x-axis vector with nonnegative magnitude. -/
lemma norm3_neg_xaxis_val (a : ℝ) (h : 0 ≤ a) : norm3 ⟨-a, 0, 0⟩ = a := by
  rw [norm3_xaxis, abs_neg, abs_of_nonneg h]

/-! ## C1 — stopping at the event horizon -/

/-- A 2D ray inside the horizon is skipped by the per-frame loop body. -/
lemma frameStep2D_inside {r_s : ℝ} {s : Ray2} (h : s.r < r_s) :
    frameStep2D r_s s = s := by
  simp [frameStep2D, if_pos h]

/-- A 3D ray inside the horizon keeps its position and velocity through
one update. -/
lemma update3D_inside (dt : ℝ) (s : Ray3)
    (h : norm3 (spherePos - s.position) < EVENT_HORIZON) :
    (update3D dt s).position = s.position ∧ (update3D dt s).velocity = s.velocity := by
  unfold update3D
  by_cases hf : s.finished
  · simp [hf]
  · simp [hf, if_pos h]

/-- A 3D ray inside the horizon keeps its position and velocity through any
sequence of updates. -/
lemma applyUpdates3D_inside : ∀ (dts : List ℝ) (s : Ray3),
    norm3 (spherePos - s.position) < EVENT_HORIZON →
    (applyUpdates3D dts s).position = s.position ∧
      (applyUpdates3D dts s).velocity = s.velocity := by
  intro dts
  induction dts with
  | nil => exact fun s _ => ⟨rfl, rfl⟩
  | cons dt rest ih =>
    intro s h
    have h1 := update3D_inside dt s h
    have h2 : norm3 (spherePos - (update3D dt s).position) < EVENT_HORIZON := by
      rw [h1.1]; exact h
    have h3 := ih (update3D dt s) h2
    have e : applyUpdates3D (dt :: rest) s = applyUpdates3D rest (update3D dt s) := rfl
    rw [e]
    exact ⟨h3.1.trans h1.1, h3.2.trans h1.2⟩

/-- C1: once a traced ray's distance to the black-hole centre falls below
the event-horizon radius, tracing stops and nothing else happens: the 2D
per-frame loop skips the geodesic step, so the ray's state is unchanged on
every later frame; every subsequent 3D update(dt) call leaves position and
velocity unchanged; and the shader marching loop exits on that step with
the hit flag set. -/
theorem C1_horizon_stops_tracing :
    (∀ (r_s : ℝ) (s : Ray2) (n : ℕ), s.r < r_s → frameSteps2D r_s n s = s) ∧
    (∀ (s : Ray3) (dts : List ℝ),
      norm3 (spherePos - s.position) < EVENT_HORIZON →
      (applyUpdates3D dts s).position = s.position ∧
        (applyUpdates3D dts s).velocity = s.velocity) ∧
    (∀ (time : ℝ) (n : ℕ) (s : MarchState),
      norm3 s.rayPos < BH_RADIUS → march time (n + 1) s = { s with hit := true }) := by
  refine ⟨?_, ?_, ?_⟩
  · intro r_s s n h
    induction n with
    | zero => rfl
    | succ k ih =>
      have e : frameSteps2D r_s (k + 1) s = frameSteps2D r_s k (frameStep2D r_s s) := rfl
      rw [e, frameStep2D_inside h, ih]
  · exact fun s dts h => applyUpdates3D_inside dts s h
  · intro time n s h
    simp [march, if_pos h]

/-- Witness for C1 at concrete inputs: a 2D ray at r = 0.1 inside
r_s = 0.2, a 3D ray at distance 0.5 from the centre, and a shader ray at
radius 0.5. -/
theorem C1_horizon_stops_tracing_witness :
    frameSteps2D 0.2 3 ⟨0.1, 0, 0, 0, []⟩ = ⟨0.1, 0, 0, 0, []⟩ ∧
    (applyUpdates3D [1, 2] (mkRayPoint ⟨0.5, 0, 0⟩ ⟨0, 50, 0⟩)).position = ⟨0.5, 0, 0⟩ ∧
    (applyUpdates3D [1, 2] (mkRayPoint ⟨0.5, 0, 0⟩ ⟨0, 50, 0⟩)).velocity = ⟨0, 50, 0⟩ ∧
    march 7 5 ⟨⟨0.5, 0, 0⟩, ⟨1, 0, 0⟩, 0, false⟩ = ⟨⟨0.5, 0, 0⟩, ⟨1, 0, 0⟩, 0, true⟩ := by
  have h1 : ((⟨0.1, 0, 0, 0, []⟩ : Ray2)).r < 0.2 := by norm_num
  have e2 : spherePos - (mkRayPoint (⟨0.5, 0, 0⟩ : Vec3) (⟨0, 50, 0⟩ : Vec3)).position
      = ⟨-0.5, 0, 0⟩ := by
    ext <;> simp [spherePos, mkRayPoint]
  have h2 : norm3 (spherePos - (mkRayPoint (⟨0.5, 0, 0⟩ : Vec3) (⟨0, 50, 0⟩ : Vec3)).position)
      < EVENT_HORIZON := by
    rw [e2, norm3_xaxis, EVENT_HORIZON, abs_lt]; constructor <;> norm_num
  have h3 : norm3 (⟨⟨0.5, 0, 0⟩, ⟨1, 0, 0⟩, 0, false⟩ : MarchState).rayPos < BH_RADIUS := by
    show norm3 ⟨0.5, 0, 0⟩ < BH_RADIUS
    rw [norm3_xaxis, BH_RADIUS, abs_lt]; constructor <;> norm_num
  have hu := C1_horizon_stops_tracing.2.1 (mkRayPoint ⟨0.5, 0, 0⟩ ⟨0, 50, 0⟩) [1, 2] h2
  refine ⟨C1_horizon_stops_tracing.1 0.2 ⟨0.1, 0, 0, 0, []⟩ 3 h1, hu.1, hu.2, ?_⟩
  exact C1_horizon_stops_tracing.2.2 7 4 ⟨⟨0.5, 0, 0⟩, ⟨1, 0, 0⟩, 0, false⟩ h3

/-! ## C2 — the two scalar ODEs of the 2D integrator are coupled, not
decoupled; only phi is cyclic -/

/-- C2 counterexample: two rays with identical radial state
(r, dr_dlambda) and identical phi but different dphi_dlambda receive
different radial updates from one call to geodesic (with r = 2, r_s = 1:
the radial acceleration is 0 for dphi_dlambda = 0 and 1 for
dphi_dlambda = 1), so the update of the radial pair depends on the angular
state and the two ODEs are not decoupled. -/
theorem C2_counterexample :
    (⟨2, 0, 0, 0, []⟩ : Ray2).r = (⟨2, 0, 0, 1, []⟩ : Ray2).r ∧
    (⟨2, 0, 0, 0, []⟩ : Ray2).dr_dlambda = (⟨2, 0, 0, 1, []⟩ : Ray2).dr_dlambda ∧
    (geodesic ⟨2, 0, 0, 0, []⟩ 1).dr_dlambda ≠ (geodesic ⟨2, 0, 0, 1, []⟩ 1).dr_dlambda := by
  refine ⟨rfl, rfl, ?_⟩
  simp only [geodesic, d2r_dlambda2, d2phi_dlambda2, radialDenom, GEODESIC_STEP]
  norm_num

/-- C2 amended: the radial and angular pairs are coupled (the radial
acceleration reads dphi_dlambda, the angular acceleration reads r and
dr_dlambda), but the angle phi itself never enters any right-hand side:
two rays that agree on r, dr_dlambda and dphi_dlambda get identical
updates of r, dr_dlambda and dphi_dlambda and identical increments of phi,
whatever their phi values. -/
theorem C2_amended_phi_cyclic :
    ∀ (s₁ s₂ : Ray2) (r_s : ℝ),
      s₁.r = s₂.r → s₁.dr_dlambda = s₂.dr_dlambda → s₁.dphi_dlambda = s₂.dphi_dlambda →
      (geodesic s₁ r_s).r = (geodesic s₂ r_s).r ∧
      (geodesic s₁ r_s).dr_dlambda = (geodesic s₂ r_s).dr_dlambda ∧
      (geodesic s₁ r_s).dphi_dlambda = (geodesic s₂ r_s).dphi_dlambda ∧
      (geodesic s₁ r_s).phi - s₁.phi = (geodesic s₂ r_s).phi - s₂.phi := by
  intro s₁ s₂ r_s h1 h2 h3
  refine ⟨?_, ?_, ?_, ?_⟩ <;>
    simp only [geodesic, d2r_dlambda2, d2phi_dlambda2, radialDenom, h1, h2, h3] <;>
    ring

/-- Witness for C2 amended: two rays sharing r = 2, dr_dlambda = 1,
dphi_dlambda = 3 but with phi = 5 and phi = 7. -/
theorem C2_amended_phi_cyclic_witness :
    (geodesic ⟨2, 5, 1, 3, []⟩ 1).r = (geodesic ⟨2, 7, 1, 3, []⟩ 1).r ∧
    (geodesic ⟨2, 5, 1, 3, []⟩ 1).dr_dlambda = (geodesic ⟨2, 7, 1, 3, []⟩ 1).dr_dlambda ∧
    (geodesic ⟨2, 5, 1, 3, []⟩ 1).dphi_dlambda = (geodesic ⟨2, 7, 1, 3, []⟩ 1).dphi_dlambda ∧
    (geodesic ⟨2, 5, 1, 3, []⟩ 1).phi - 5 = (geodesic ⟨2, 7, 1, 3, []⟩ 1).phi - 7 :=
  C2_amended_phi_cyclic ⟨2, 5, 1, 3, []⟩ ⟨2, 7, 1, 3, []⟩ 1 rfl rfl rfl

/-! ## C3 — the 3D normalize-and-step update and its speed invariant -/

/-- C3 counterexample: a ray at distance 2 (outside the event horizon)
whose velocity is exactly cancelled by the gravitational impulse of one
update with dt = 1.  The velocity after the impulse is the zero vector, so
rescaling it cannot produce length LIGHT_SPEED: the resulting speed is 0
in this model (and NaN in the C++ floats), not LIGHT_SPEED, refuting the
unconditional speed invariant. -/
theorem C3_counterexample :
    (Ray3.finished ⟨⟨2, 0, 0⟩, ⟨3300, 0, 0⟩, ⟨2, 0, 0⟩, ⟨3300, 0, 0⟩, [], false, false⟩ = false) ∧
    EVENT_HORIZON ≤ norm3 (spherePos -
      Ray3.position ⟨⟨2, 0, 0⟩, ⟨3300, 0, 0⟩, ⟨2, 0, 0⟩, ⟨3300, 0, 0⟩, [], false, false⟩) ∧
    norm3 (update3D 1
      ⟨⟨2, 0, 0⟩, ⟨3300, 0, 0⟩, ⟨2, 0, 0⟩, ⟨3300, 0, 0⟩, [], false, false⟩).velocity
      ≠ LIGHT_SPEED := by
  have e : spherePos - (⟨2, 0, 0⟩ : Vec3) = ⟨-2, 0, 0⟩ := by ext <;> simp [spherePos]
  have habs : |(-2 : ℝ)| = 2 := by rw [abs_neg]; exact abs_of_pos (by norm_num)
  have hn : norm3 (spherePos - (⟨2, 0, 0⟩ : Vec3)) = 2 := by rw [e, norm3_xaxis, habs]
  have hnormz : normalize3 (⟨-2, 0, 0⟩ : Vec3) = ⟨-1, 0, 0⟩ :=
    normalize3_neg_xaxis 2 (by norm_num)
  have hn2 : norm3 (⟨-2, 0, 0⟩ : Vec3) = 2 := by rw [norm3_xaxis, habs]
  have hpost : postImpulse 1
      ⟨⟨2, 0, 0⟩, ⟨3300, 0, 0⟩, ⟨2, 0, 0⟩, ⟨3300, 0, 0⟩, [], false, false⟩ = 0 := by
    simp only [postImpulse, hn, e, hn2, hnormz, SIMULATION_G, BH_MASS]
    ext <;> simp <;> norm_num
  have hz : normalize3 (0 : Vec3) = 0 := by ext <;> simp [normalize3]
  have hv : (update3D 1
      ⟨⟨2, 0, 0⟩, ⟨3300, 0, 0⟩, ⟨2, 0, 0⟩, ⟨3300, 0, 0⟩, [], false, false⟩).velocity = 0 := by
    simp only [update3D, hn, hpost, hz]
    norm_num [EVENT_HORIZON]
    ext <;> simp
  refine ⟨rfl, ?_, ?_⟩
  · rw [show Ray3.position ⟨⟨2, 0, 0⟩, ⟨3300, 0, 0⟩, ⟨2, 0, 0⟩, ⟨3300, 0, 0⟩, [], false, false⟩
        = ⟨2, 0, 0⟩ from rfl, hn, EVENT_HORIZON]
    norm_num
  · rw [hv, norm3_zero, LIGHT_SPEED]
    norm_num

/-- C3 amended: for every 3D ray not yet finished and at distance at least
EVENT_HORIZON, provided the velocity after the gravitational impulse is
nonzero (the C++ normalize produces NaN on the zero vector), one
update(dt) rescales that velocity to Euclidean length exactly LIGHT_SPEED
and advances the position by the rescaled velocity times dt, so the speed
invariant holds after the update. -/
theorem C3_amended_speed_invariant :
    ∀ (dt : ℝ) (s : Ray3), s.finished = false →
      EVENT_HORIZON ≤ norm3 (spherePos - s.position) →
      postImpulse dt s ≠ 0 →
      (update3D dt s).velocity = LIGHT_SPEED • normalize3 (postImpulse dt s) ∧
      (update3D dt s).position = s.position + dt • (update3D dt s).velocity ∧
      norm3 (update3D dt s).velocity = LIGHT_SPEED := by
  intro dt s hf hd hnz
  have hlt : ¬ norm3 (spherePos - s.position) < EVENT_HORIZON := not_lt.mpr hd
  have hv : (update3D dt s).velocity = LIGHT_SPEED • normalize3 (postImpulse dt s) := by
    simp [update3D, hf, hlt]
  refine ⟨hv, ?_, ?_⟩
  · simp [update3D, hf, hlt]
  · rw [hv, norm3_rescale LIGHT_SPEED (by rw [LIGHT_SPEED]; norm_num) hnz]

/-- Witness for C3 amended: a ray at position (2,0,0) with velocity
(0,50,0); with dt = 0.01 the impulse is (-33,0,0), the post-impulse
velocity (-33,50,0) is nonzero, and the updated velocity has length
exactly LIGHT_SPEED. -/
theorem C3_amended_speed_invariant_witness :
    norm3 (update3D 0.01
      ⟨⟨2, 0, 0⟩, ⟨0, 50, 0⟩, ⟨2, 0, 0⟩, ⟨0, 50, 0⟩, [], false, false⟩).velocity
      = LIGHT_SPEED := by
  have e : spherePos - (⟨2, 0, 0⟩ : Vec3) = ⟨-2, 0, 0⟩ := by ext <;> simp [spherePos]
  have habs : |(-2 : ℝ)| = 2 := by rw [abs_neg]; exact abs_of_pos (by norm_num)
  have hn : norm3 (spherePos - (⟨2, 0, 0⟩ : Vec3)) = 2 := by rw [e, norm3_xaxis, habs]
  have hnormz : normalize3 (⟨-2, 0, 0⟩ : Vec3) = ⟨-1, 0, 0⟩ :=
    normalize3_neg_xaxis 2 (by norm_num)
  have hd : EVENT_HORIZON ≤ norm3 (spherePos -
      Ray3.position ⟨⟨2, 0, 0⟩, ⟨0, 50, 0⟩, ⟨2, 0, 0⟩, ⟨0, 50, 0⟩, [], false, false⟩) := by
    rw [show Ray3.position ⟨⟨2, 0, 0⟩, ⟨0, 50, 0⟩, ⟨2, 0, 0⟩, ⟨0, 50, 0⟩, [], false, false⟩
        = ⟨2, 0, 0⟩ from rfl, hn, EVENT_HORIZON]
    norm_num
  have hn2 : norm3 (⟨-2, 0, 0⟩ : Vec3) = 2 := by rw [norm3_xaxis, habs]
  have hpost : postImpulse 0.01
      ⟨⟨2, 0, 0⟩, ⟨0, 50, 0⟩, ⟨2, 0, 0⟩, ⟨0, 50, 0⟩, [], false, false⟩ = ⟨-33, 50, 0⟩ := by
    simp only [postImpulse, hn, e, hn2, hnormz, SIMULATION_G, BH_MASS]
    ext <;> simp <;> norm_num
  have hnz : postImpulse 0.01
      ⟨⟨2, 0, 0⟩, ⟨0, 50, 0⟩, ⟨2, 0, 0⟩, ⟨0, 50, 0⟩, [], false, false⟩ ≠ 0 := by
    rw [hpost]
    intro hc
    have := congrArg Vec3.y hc
    simp at this
  exact (C3_amended_speed_invariant 0.01
    ⟨⟨2, 0, 0⟩, ⟨0, 50, 0⟩, ⟨2, 0, 0⟩, ⟨0, 50, 0⟩, [], false, false⟩ rfl hd hnz).2.2

/-! ## C4 — step sizes of the three integrators -/

/-- One shader gravity step from an x-axis position moving straight toward
the centre: the bent direction stays (-1,0,0) and the ray advances by
STEP_SIZE * min(r, 5) along it. -/
lemma shaderStep_xaxis (a : ℝ) (ha : 0 < a) (d : Vec3) (b : Bool) :
    shaderStep ⟨⟨a, 0, 0⟩, ⟨-1, 0, 0⟩, d, b⟩
      = ⟨⟨a - STEP_SIZE * min a 5, 0, 0⟩, ⟨-1, 0, 0⟩, d, b⟩ := by
  have hr : norm3 ⟨a, 0, 0⟩ = a := by rw [norm3_xaxis, abs_of_pos ha]
  have hneg : -(⟨a, 0, 0⟩ : Vec3) = ⟨-a, 0, 0⟩ := by ext <;> simp
  have htc : normalize3 (-(⟨a, 0, 0⟩ : Vec3)) = ⟨-1, 0, 0⟩ := by
    rw [hneg]; exact normalize3_neg_xaxis a ha
  have hforce : (0 : ℝ) < 1 + 1.5 * BH_RADIUS / (a * a) * STEP_SIZE := by
    have h1 : (0 : ℝ) < 1.5 * BH_RADIUS / (a * a) * STEP_SIZE := by
      rw [BH_RADIUS, STEP_SIZE]; positivity
    linarith
  have hsum : (⟨-1, 0, 0⟩ : Vec3) + (1.5 * BH_RADIUS / (a * a) * STEP_SIZE) • (⟨-1, 0, 0⟩ : Vec3)
      = ⟨-(1 + 1.5 * BH_RADIUS / (a * a) * STEP_SIZE), 0, 0⟩ := by
    ext <;> simp <;> ring
  have hdir : normalize3
      (⟨-(1 + 1.5 * BH_RADIUS / (a * a) * STEP_SIZE), 0, 0⟩ : Vec3) = ⟨-1, 0, 0⟩ :=
    normalize3_neg_xaxis _ hforce
  simp only [shaderStep, hr, htc, hsum, hdir]
  ext <;> simp <;> ring

/-- C4 counterexample: the shader's spatial step depends on the ray's
current state.  Two marching states whose bent direction is the same unit
vector (-1,0,0) — one at radius 2, one at radius 10 — advance by
displacements of different lengths (0.16 versus 0.4), because the code
moves by STEP_SIZE * min(r, 5.0) (the source comment itself says
"Adaptive step size").  So the shader's integration step is not
state-independent as claimed. -/
theorem C4_counterexample :
    (shaderStep ⟨⟨2, 0, 0⟩, ⟨-1, 0, 0⟩, 0, false⟩).rayDir
      = (shaderStep ⟨⟨10, 0, 0⟩, ⟨-1, 0, 0⟩, 0, false⟩).rayDir ∧
    (shaderStep ⟨⟨2, 0, 0⟩, ⟨-1, 0, 0⟩, 0, false⟩).rayPos
      - (⟨⟨2, 0, 0⟩, ⟨-1, 0, 0⟩, 0, false⟩ : MarchState).rayPos = ⟨-0.16, 0, 0⟩ ∧
    (shaderStep ⟨⟨10, 0, 0⟩, ⟨-1, 0, 0⟩, 0, false⟩).rayPos
      - (⟨⟨10, 0, 0⟩, ⟨-1, 0, 0⟩, 0, false⟩ : MarchState).rayPos = ⟨-0.4, 0, 0⟩ ∧
    ((⟨-0.16, 0, 0⟩ : Vec3) ≠ ⟨-0.4, 0, 0⟩) := by
  have h2 := shaderStep_xaxis 2 (by norm_num) 0 false
  have h10 := shaderStep_xaxis 10 (by norm_num) 0 false
  refine ⟨by rw [h2, h10], ?_, ?_, ?_⟩
  · rw [h2]
    ext <;> simp [STEP_SIZE] <;> norm_num
  · rw [h10]
    ext <;> simp [STEP_SIZE] <;> norm_num
  · intro hc
    have := congrArg Vec3.x hc
    norm_num at this

/-- C4 amended: the 2D integrator advances r and phi with the constant
step GEODESIC_STEP and the 3D integrator advances position with the
frame's dt, both independent of the ray's state; but the ray-marching
shader advances by STEP_SIZE * min(r, 5.0) along the bent direction, a
step that depends on the ray's current radius r, so the shader does have
a (simple) adaptive step. -/
theorem C4_amended_step_sizes :
    (∀ (s : Ray2) (r_s : ℝ),
      (geodesic s r_s).r - s.r = (geodesic s r_s).dr_dlambda * GEODESIC_STEP ∧
      (geodesic s r_s).phi - s.phi = (geodesic s r_s).dphi_dlambda * GEODESIC_STEP) ∧
    (∀ (dt : ℝ) (s : Ray3), s.finished = false →
      EVENT_HORIZON ≤ norm3 (spherePos - s.position) →
      (update3D dt s).position - s.position = dt • (update3D dt s).velocity) ∧
    (∀ s : MarchState,
      (shaderStep s).rayPos - s.rayPos
        = (STEP_SIZE * min (norm3 s.rayPos) 5) • (shaderStep s).rayDir) := by
  refine ⟨?_, ?_, ?_⟩
  · intro s r_s
    constructor <;> (simp only [geodesic]; ring)
  · intro dt s hf hd
    have hlt : ¬ norm3 (spherePos - s.position) < EVENT_HORIZON := not_lt.mpr hd
    simp only [update3D, hf, Bool.false_eq_true, if_false, if_neg hlt]
    ext <;> simp
  · intro s
    simp only [shaderStep]
    ext <;> simp

/-- Witness for C4 amended at concrete inputs: the 2D equations at a
concrete ray, the 3D position advance at a ray at distance 2 with dt = 1,
and the shader advance at radius 2. -/
theorem C4_amended_step_sizes_witness :
    ((geodesic ⟨2, 0, 1, 3, []⟩ 1).r - 2
      = (geodesic ⟨2, 0, 1, 3, []⟩ 1).dr_dlambda * GEODESIC_STEP) ∧
    ((update3D 1 ⟨⟨2, 0, 0⟩, ⟨0, 50, 0⟩, ⟨2, 0, 0⟩, ⟨0, 50, 0⟩, [], false, false⟩).position
      - (⟨⟨2, 0, 0⟩, ⟨0, 50, 0⟩, ⟨2, 0, 0⟩, ⟨0, 50, 0⟩, [], false, false⟩ : Ray3).position
      = (1 : ℝ) • (update3D 1
          ⟨⟨2, 0, 0⟩, ⟨0, 50, 0⟩, ⟨2, 0, 0⟩, ⟨0, 50, 0⟩, [], false, false⟩).velocity) ∧
    ((shaderStep ⟨⟨2, 0, 0⟩, ⟨-1, 0, 0⟩, 0, false⟩).rayPos
      - (⟨⟨2, 0, 0⟩, ⟨-1, 0, 0⟩, 0, false⟩ : MarchState).rayPos
      = (STEP_SIZE * min (norm3 ⟨2, 0, 0⟩) 5)
        • (shaderStep ⟨⟨2, 0, 0⟩, ⟨-1, 0, 0⟩, 0, false⟩).rayDir) := by
  have hd : EVENT_HORIZON ≤ norm3 (spherePos -
      Ray3.position ⟨⟨2, 0, 0⟩, ⟨0, 50, 0⟩, ⟨2, 0, 0⟩, ⟨0, 50, 0⟩, [], false, false⟩) := by
    rw [show Ray3.position ⟨⟨2, 0, 0⟩, ⟨0, 50, 0⟩, ⟨2, 0, 0⟩, ⟨0, 50, 0⟩, [], false, false⟩
        = ⟨2, 0, 0⟩ from rfl, spherePos_sub_xaxis, norm3_neg_xaxis_val 2 (by norm_num),
      EVENT_HORIZON]
    norm_num
  exact ⟨(C4_amended_step_sizes.1 ⟨2, 0, 1, 3, []⟩ 1).1,
    C4_amended_step_sizes.2.1 1 _ rfl hd,
    C4_amended_step_sizes.2.2 ⟨⟨2, 0, 0⟩, ⟨-1, 0, 0⟩, 0, false⟩⟩

/-! ## C5 — rays do not interact -/

/-- C5: updating the whole collection of rays for one frame equals
updating each ray on its own.  In both demos the per-frame update of the
collection is the elementwise map of the per-ray update, so the post-state
of ray i depends only on ray i's pre-state: two runs whose collections
agree at index i (whatever the other rays are) agree at index i
afterwards, and entry i of the updated collection is exactly the per-ray
update applied to entry i. -/
theorem C5_noninterference :
    (∀ (r_s : ℝ) (l₁ l₂ : List Ray2) (i : ℕ), l₁[i]? = l₂[i]? →
      (frameAll2D r_s l₁)[i]? = (frameAll2D r_s l₂)[i]?) ∧
    (∀ (dt : ℝ) (l₁ l₂ : List Ray3) (i : ℕ), l₁[i]? = l₂[i]? →
      (frameAll3D dt l₁)[i]? = (frameAll3D dt l₂)[i]?) ∧
    (∀ (r_s : ℝ) (l : List Ray2) (i : ℕ),
      (frameAll2D r_s l)[i]? = (l[i]?).map (frameStep2D r_s)) ∧
    (∀ (dt : ℝ) (l : List Ray3) (i : ℕ),
      (frameAll3D dt l)[i]? = (l[i]?).map (update3D dt)) := by
  refine ⟨?_, ?_, ?_, ?_⟩
  · intro r_s l₁ l₂ i h
    simp only [frameAll2D, List.getElem?_map, h]
  · intro dt l₁ l₂ i h
    simp only [frameAll3D, List.getElem?_map, h]
  · intro r_s l i
    simp only [frameAll2D, List.getElem?_map]
  · intro dt l i
    simp only [frameAll3D, List.getElem?_map]

/-- Witness for C5 at concrete inputs: two 2D runs and two 3D runs whose
collections agree at index 0 but have different other rays. -/
theorem C5_noninterference_witness :
    (frameAll2D 0.2 [⟨2, 0, 1, 0, []⟩])[0]?
      = (frameAll2D 0.2 [⟨2, 0, 1, 0, []⟩, ⟨9, 9, 9, 9, []⟩])[0]? ∧
    (frameAll3D 1 [mkRayPoint ⟨2, 0, 0⟩ ⟨0, 50, 0⟩])[0]?
      = (frameAll3D 1 [mkRayPoint ⟨2, 0, 0⟩ ⟨0, 50, 0⟩, mkRayPoint 0 0])[0]? :=
  ⟨C5_noninterference.1 0.2 [⟨2, 0, 1, 0, []⟩] [⟨2, 0, 1, 0, []⟩, ⟨9, 9, 9, 9, []⟩] 0 rfl,
   C5_noninterference.2.1 1 [mkRayPoint ⟨2, 0, 0⟩ ⟨0, 50, 0⟩]
     [mkRayPoint ⟨2, 0, 0⟩ ⟨0, 50, 0⟩, mkRayPoint 0 0] 0 rfl⟩

/-! ## C6 — the integration steps are semi-implicit Euler, not explicit
Euler -/

/-- C6 counterexample: the 2D step does not advance the position with the
start-of-step velocity.  At r = 2, dr_dlambda = 0, dphi_dlambda = 1,
r_s = 0.2 the radial acceleration is 1.8, the updated dr_dlambda is
0.036, and geodesic sets r to 2 + 0.036 * 0.02 = 2.00072 — not
2 + 0 * 0.02 = 2 as an explicit-Euler position update from the start
velocity would give (the code comments itself: "Update position (r, phi)
using the new velocity"). -/
theorem C6_counterexample :
    (geodesic ⟨2, 0, 0, 1, []⟩ 0.2).r
      ≠ (⟨2, 0, 0, 1, []⟩ : Ray2).r + (⟨2, 0, 0, 1, []⟩ : Ray2).dr_dlambda * GEODESIC_STEP := by
  simp only [geodesic, d2r_dlambda2, d2phi_dlambda2, radialDenom, GEODESIC_STEP]
  norm_num

/-- C6 amended: each integration step is a semi-implicit Euler step: the
velocities are advanced with accelerations evaluated at the start-of-step
state, and the positions are then advanced with the just-updated
velocities (not the start-of-step velocities).  This holds for the 2D
geodesic step and for the 3D deflection step. -/
theorem C6_amended_semi_implicit_euler :
    (∀ (s : Ray2) (r_s : ℝ),
      (geodesic s r_s).dr_dlambda
        = s.dr_dlambda + d2r_dlambda2 s.r s.dr_dlambda s.dphi_dlambda r_s * GEODESIC_STEP ∧
      (geodesic s r_s).dphi_dlambda
        = s.dphi_dlambda + d2phi_dlambda2 s.r s.dr_dlambda s.dphi_dlambda * GEODESIC_STEP ∧
      (geodesic s r_s).r = s.r + (geodesic s r_s).dr_dlambda * GEODESIC_STEP ∧
      (geodesic s r_s).phi = s.phi + (geodesic s r_s).dphi_dlambda * GEODESIC_STEP) ∧
    (∀ (dt : ℝ) (s : Ray3), s.finished = false →
      EVENT_HORIZON ≤ norm3 (spherePos - s.position) →
      (update3D dt s).velocity = LIGHT_SPEED • normalize3 (postImpulse dt s) ∧
      (update3D dt s).position = s.position + dt • (update3D dt s).velocity) := by
  refine ⟨fun s r_s => ⟨rfl, rfl, rfl, rfl⟩, ?_⟩
  intro dt s hf hd
  have hlt : ¬ norm3 (spherePos - s.position) < EVENT_HORIZON := not_lt.mpr hd
  constructor <;> simp [update3D, hf, hlt]

/-- Witness for C6 amended: the 2D equations at a concrete ray and the 3D
equations at a ray at distance 2 with dt = 1. -/
theorem C6_amended_semi_implicit_euler_witness :
    ((geodesic ⟨2, 0, 0, 1, []⟩ 0.2).r
      = 2 + (geodesic ⟨2, 0, 0, 1, []⟩ 0.2).dr_dlambda * GEODESIC_STEP) ∧
    ((update3D 1 ⟨⟨2, 0, 0⟩, ⟨0, 50, 0⟩, ⟨2, 0, 0⟩, ⟨0, 50, 0⟩, [], false, false⟩).position
      = (⟨⟨2, 0, 0⟩, ⟨0, 50, 0⟩, ⟨2, 0, 0⟩, ⟨0, 50, 0⟩, [], false, false⟩ : Ray3).position
        + (1 : ℝ) • (update3D 1
            ⟨⟨2, 0, 0⟩, ⟨0, 50, 0⟩, ⟨2, 0, 0⟩, ⟨0, 50, 0⟩, [], false, false⟩).velocity) := by
  have hd : EVENT_HORIZON ≤ norm3 (spherePos -
      Ray3.position ⟨⟨2, 0, 0⟩, ⟨0, 50, 0⟩, ⟨2, 0, 0⟩, ⟨0, 50, 0⟩, [], false, false⟩) := by
    rw [show Ray3.position ⟨⟨2, 0, 0⟩, ⟨0, 50, 0⟩, ⟨2, 0, 0⟩, ⟨0, 50, 0⟩, [], false, false⟩
        = ⟨2, 0, 0⟩ from rfl, spherePos_sub_xaxis, norm3_neg_xaxis_val 2 (by norm_num),
      EVENT_HORIZON]
    norm_num
  exact ⟨(C6_amended_semi_implicit_euler.1 ⟨2, 0, 0, 1, []⟩ 0.2).2.2.1,
    (C6_amended_semi_implicit_euler.2 1 _ rfl hd).2⟩

/-! ## C7 — the 2D and 3D integrators are not the same update rule -/

/-- On the corresponding states obtained from the 2D polar ray
(r, phi, dr, dphi) = (2, 0, 1, 0) — Cartesian position (2,0,0) and
velocity (1,0,0) — one 3D step with dt = GEODESIC_STEP lands at position
(1,0,0), while one 2D geodesic step (with the 2D demo's r_s = 0.2) lands
at radius 2 + 1799/90000; the two integrators produce different results on
corresponding states. -/
lemma cart_step_mismatch :
    (update3D GEODESIC_STEP
      (mkRayPoint (toCartPos ⟨2, 0, 1, 0, []⟩) (toCartVel ⟨2, 0, 1, 0, []⟩))).position
      ≠ toCartPos (geodesic ⟨2, 0, 1, 0, []⟩ bh2D_r_s) := by
  have hp : toCartPos ⟨2, 0, 1, 0, []⟩ = ⟨2, 0, 0⟩ := by
    ext <;> simp [toCartPos]
  have hv : toCartVel ⟨2, 0, 1, 0, []⟩ = ⟨1, 0, 0⟩ := by
    ext <;> simp [toCartVel]
  have e : spherePos - (⟨2, 0, 0⟩ : Vec3) = ⟨-2, 0, 0⟩ := spherePos_sub_xaxis 2
  have hn : norm3 (⟨-2, 0, 0⟩ : Vec3) = 2 := norm3_neg_xaxis_val 2 (by norm_num)
  have hnz : normalize3 (⟨-2, 0, 0⟩ : Vec3) = ⟨-1, 0, 0⟩ :=
    normalize3_neg_xaxis 2 (by norm_num)
  have hpost : postImpulse GEODESIC_STEP (mkRayPoint ⟨2, 0, 0⟩ ⟨1, 0, 0⟩) = ⟨-65, 0, 0⟩ := by
    simp only [postImpulse, mkRayPoint, e, hn, hnz, SIMULATION_G, BH_MASS, GEODESIC_STEP]
    ext <;> simp <;> norm_num
  have hn65 : normalize3 (⟨-65, 0, 0⟩ : Vec3) = ⟨-1, 0, 0⟩ :=
    normalize3_neg_xaxis 65 (by norm_num)
  have hupd : (update3D GEODESIC_STEP (mkRayPoint ⟨2, 0, 0⟩ ⟨1, 0, 0⟩)).position
      = ⟨1, 0, 0⟩ := by
    have hfin : (mkRayPoint (⟨2, 0, 0⟩ : Vec3) (⟨1, 0, 0⟩ : Vec3)).finished = false := rfl
    have hposi : (mkRayPoint (⟨2, 0, 0⟩ : Vec3) (⟨1, 0, 0⟩ : Vec3)).position = ⟨2, 0, 0⟩ := rfl
    have hlt : ¬ norm3 (spherePos - (⟨2, 0, 0⟩ : Vec3)) < EVENT_HORIZON := by
      rw [e, hn, EVENT_HORIZON]; norm_num
    simp only [update3D, hfin, Bool.false_eq_true, if_false, hposi, if_neg hlt, hpost, hn65]
    ext <;> simp [LIGHT_SPEED, GEODESIC_STEP] <;> norm_num
  have hgr : (geodesic ⟨2, 0, 1, 0, []⟩ bh2D_r_s).r = 2 + 1799 / 90000 := by
    simp only [geodesic, d2r_dlambda2, d2phi_dlambda2, radialDenom, GEODESIC_STEP, bh2D_r_s]
    norm_num
  have hgphi : (geodesic ⟨2, 0, 1, 0, []⟩ bh2D_r_s).phi = 0 := by
    simp only [geodesic, d2r_dlambda2, d2phi_dlambda2, radialDenom, GEODESIC_STEP, bh2D_r_s]
    norm_num
  have hcart : toCartPos (geodesic ⟨2, 0, 1, 0, []⟩ bh2D_r_s) = ⟨2 + 1799 / 90000, 0, 0⟩ := by
    simp only [toCartPos, hgr, hgphi]
    ext <;> simp
  rw [hp, hv, hupd, hcart]
  intro hc
  have := congrArg Vec3.x hc
  norm_num at this

/-- C7 counterexample: one integration step of the 2D demo and one of the
3D demo do not produce equal results on corresponding ray states.  With
the 2D polar state (r, phi, dr_dlambda, dphi_dlambda) = (2, 0, 1, 0)
translated to the Cartesian position (2,0,0) and velocity (1,0,0), one 3D
update with dt = GEODESIC_STEP ends at position (1,0,0) (the 3D rule
renormalizes speed to LIGHT_SPEED = 50), while one 2D geodesic step ends
at Cartesian position (2 + 1799/90000, 0, 0). -/
theorem C7_counterexample :
    (update3D GEODESIC_STEP
      (mkRayPoint (toCartPos ⟨2, 0, 1, 0, []⟩) (toCartVel ⟨2, 0, 1, 0, []⟩))).position
      ≠ toCartPos (geodesic ⟨2, 0, 1, 0, []⟩ bh2D_r_s) :=
  cart_step_mismatch

/-- C7 amended: the two integrators share only the structural pattern —
each performs one semi-implicit Euler step per ray per frame (velocity
updated from a state-dependent acceleration, then position advanced with
the updated velocity) — but they are different numerical rules
(Schwarzschild null-geodesic polar ODEs versus speed-renormalized
Newtonian deflection) and produce different results on corresponding
states. -/
theorem C7_amended_structure_only :
    (∀ (s : Ray2) (r_s : ℝ),
      (geodesic s r_s).r = s.r + (geodesic s r_s).dr_dlambda * GEODESIC_STEP ∧
      (geodesic s r_s).phi = s.phi + (geodesic s r_s).dphi_dlambda * GEODESIC_STEP) ∧
    (∀ (dt : ℝ) (s : Ray3), s.finished = false →
      EVENT_HORIZON ≤ norm3 (spherePos - s.position) →
      (update3D dt s).position = s.position + dt • (update3D dt s).velocity) ∧
    (update3D GEODESIC_STEP
      (mkRayPoint (toCartPos ⟨2, 0, 1, 0, []⟩) (toCartVel ⟨2, 0, 1, 0, []⟩))).position
      ≠ toCartPos (geodesic ⟨2, 0, 1, 0, []⟩ bh2D_r_s) := by
  refine ⟨fun s r_s => ⟨rfl, rfl⟩, ?_, cart_step_mismatch⟩
  intro dt s hf hd
  have hlt : ¬ norm3 (spherePos - s.position) < EVENT_HORIZON := not_lt.mpr hd
  simp [update3D, hf, hlt]

/-- Witness for C7 amended: the structural equations at concrete inputs, a
2D ray and a 3D ray at distance 2 with dt = 1. -/
theorem C7_amended_structure_only_witness :
    ((geodesic ⟨2, 0, 1, 0, []⟩ 0.2).r
      = 2 + (geodesic ⟨2, 0, 1, 0, []⟩ 0.2).dr_dlambda * GEODESIC_STEP) ∧
    ((update3D 1 ⟨⟨2, 0, 0⟩, ⟨0, 50, 0⟩, ⟨2, 0, 0⟩, ⟨0, 50, 0⟩, [], false, false⟩).position
      = (⟨⟨2, 0, 0⟩, ⟨0, 50, 0⟩, ⟨2, 0, 0⟩, ⟨0, 50, 0⟩, [], false, false⟩ : Ray3).position
        + (1 : ℝ) • (update3D 1
            ⟨⟨2, 0, 0⟩, ⟨0, 50, 0⟩, ⟨2, 0, 0⟩, ⟨0, 50, 0⟩, [], false, false⟩).velocity) := by
  have hd : EVENT_HORIZON ≤ norm3 (spherePos -
      Ray3.position ⟨⟨2, 0, 0⟩, ⟨0, 50, 0⟩, ⟨2, 0, 0⟩, ⟨0, 50, 0⟩, [], false, false⟩) := by
    rw [show Ray3.position ⟨⟨2, 0, 0⟩, ⟨0, 50, 0⟩, ⟨2, 0, 0⟩, ⟨0, 50, 0⟩, [], false, false⟩
        = ⟨2, 0, 0⟩ from rfl, spherePos_sub_xaxis, norm3_neg_xaxis_val 2 (by norm_num),
      EVENT_HORIZON]
    norm_num
  exact ⟨(C7_amended_structure_only.1 ⟨2, 0, 1, 0, []⟩ 0.2).1,
    C7_amended_structure_only.2.1 1 _ rfl hd⟩

/-! ## C8 — the 2D trail never exceeds maxTrailLength -/

/-- One frame keeps the 2D trail within the bound: the update appends at
most one point and erases the oldest one whenever the trail would exceed
maxTrailLength. -/
lemma frameStep2D_trail_le {r_s : ℝ} {s : Ray2} (h : s.trail.length ≤ maxTrailLength) :
    (frameStep2D r_s s).trail.length ≤ maxTrailLength := by
  have ht : (geodesic s r_s).trail = s.trail := rfl
  unfold frameStep2D
  split
  · exact h
  · unfold rayUpdate2D
    split
    · simpa [ht] using h
    · simp only [ht]
      split
      · simp only [List.length_drop, List.length_append, List.length_singleton]
        omega
      · rename_i hle
        simp only [List.length_append, List.length_singleton] at hle ⊢
        omega

/-- C8: for every 2D ray whose trail is within the bound (a freshly
constructed Ray starts with a single point) and every number of frames,
the trail never holds more than maxTrailLength = 1000 points: each frame
outside the horizon appends at most one point and, whenever the trail
would exceed the bound, the oldest point is removed within the same
frame. -/
theorem C8_trail_bounded :
    ∀ (r_s : ℝ) (n : ℕ) (s : Ray2), s.trail.length ≤ maxTrailLength →
      (frameSteps2D r_s n s).trail.length ≤ maxTrailLength := by
  intro r_s n
  induction n with
  | zero => exact fun s h => h
  | succ k ih => exact fun s h => ih _ (frameStep2D_trail_le h)

/-- Witness for C8: two frames from a ray with an empty trail. -/
theorem C8_trail_bounded_witness :
    (frameSteps2D 0.2 2 ⟨2, 0, 1, 0, []⟩).trail.length ≤ maxTrailLength :=
  C8_trail_bounded 0.2 2 ⟨2, 0, 1, 0, []⟩ (by simp [maxTrailLength])

/-! ## C9 — reset restores the construction-time state -/

/-- RayPoint::update never touches the stored originals. -/
lemma update3D_originals (dt : ℝ) (s : Ray3) :
    (update3D dt s).originalPos = s.originalPos ∧
    (update3D dt s).originalVel = s.originalVel := by
  unfold update3D
  split
  · exact ⟨rfl, rfl⟩
  · dsimp only
    split
    · exact ⟨rfl, rfl⟩
    · exact ⟨rfl, rfl⟩

/-- Any sequence of updates never touches the stored originals. -/
lemma applyUpdates3D_originals : ∀ (dts : List ℝ) (s : Ray3),
    (applyUpdates3D dts s).originalPos = s.originalPos ∧
    (applyUpdates3D dts s).originalVel = s.originalVel := by
  intro dts
  induction dts with
  | nil => exact fun s => ⟨rfl, rfl⟩
  | cons dt rest ih =>
    intro s
    have h1 := update3D_originals dt s
    have h2 := ih (update3D dt s)
    exact ⟨h2.1.trans h1.1, h2.2.trans h1.2⟩

/-- C9: reset is a round-trip to the initial state: for every 3D ray and
every sequence of update(dt) calls applied after construction, reset()
restores exactly the state the ray had right after construction —
position = originalPos, velocity = originalVel, every trail entry equal to
originalPos, finished = false and hasHit = false. -/
theorem C9_reset_round_trip :
    ∀ (p v : Vec3) (dts : List ℝ),
      resetRay (applyUpdates3D dts (mkRayPoint p v)) = mkRayPoint p v := by
  intro p v dts
  have h := applyUpdates3D_originals dts (mkRayPoint p v)
  have hp : (applyUpdates3D dts (mkRayPoint p v)).originalPos = p := h.1
  have hv : (applyUpdates3D dts (mkRayPoint p v)).originalVel = v := h.2
  unfold resetRay
  rw [hp, hv]
  rfl

/-! ## C10 — division safety of the geodesic denominators under the main
loop's guard -/

/-- C10 counterexample: the main-loop guard only skips rays with
r < r_s, so a ray at exactly r = r_s is passed to geodesic; there the
radial-acceleration denominator 2 * r * (r - r_s) is zero, so it is not
true that every ray the loop passes gives nonzero denominators. -/
theorem C10_counterexample :
    ¬ ((⟨bh2D_r_s, 0, 0, 0, []⟩ : Ray2).r < bh2D_r_s) ∧
    radialDenom (⟨bh2D_r_s, 0, 0, 0, []⟩ : Ray2).r bh2D_r_s = 0 := by
  constructor
  · simp
  · simp [radialDenom]

/-- C10 amended: for every ray strictly outside the Schwarzschild radius
r_s = 0.2 of the 2D demo, both denominators that geodesic divides by — r
(in r_s / r and in the angular acceleration) and the radial denominator
2 * r * (r - r_s) — are nonzero; at exactly r = r_s the radial denominator
vanishes. -/
theorem C10_amended_strict_guard :
    ∀ s : Ray2, bh2D_r_s < s.r →
      s.r ≠ 0 ∧ radialDenom s.r bh2D_r_s ≠ 0 := by
  intro s h
  have h0 : (0 : ℝ) < bh2D_r_s := by rw [bh2D_r_s]; norm_num
  have hr : 0 < s.r := h0.trans h
  refine ⟨ne_of_gt hr, ?_⟩
  rw [radialDenom]
  have hpos : 0 < 2 * s.r * (s.r - bh2D_r_s) := by nlinarith
  exact ne_of_gt hpos

/-- Witness for C10 amended: a ray at r = 1 > 0.2. -/
theorem C10_amended_strict_guard_witness :
    (⟨1, 0, 0, 0, []⟩ : Ray2).r ≠ 0 ∧
    radialDenom (⟨1, 0, 0, 0, []⟩ : Ray2).r bh2D_r_s ≠ 0 :=
  C10_amended_strict_guard ⟨1, 0, 0, 0, []⟩ (by norm_num [bh2D_r_s])
